import Mathlib

/-!
Verification development for a layered spiking-neural-network simulator with
hardware fault injection.

The development embeds the program in two complementary views:

* `Bits`: the register fault model at the level of IEEE-754 binary64 bit
  patterns.  A stored `f64` is represented by its 64-bit pattern (a `Nat`
  below `2 ^ 64`); the Rust code manipulates patterns through
  `std::mem::transmute`, a bit-exact round trip, so `Bits.Register.read_value`
  is a faithful transcription of `Register::read_value` together with its
  `bitwise_and` / `bitwise_or` / `bitwise_xor` helpers.

* `Dyn`: the neuron dynamics at the level of numeric values.  Scalar
  arithmetic on `f64` is modelled exactly over `ℚ` (rounding is abstracted),
  the transcendental `exp` called by the code is an explicit function
  parameter `e`, and the three bit-level fault transformations (which have no
  counterpart on an abstract numeric carrier) are an explicit parameter
  `DamageOps`.  The control flow of every function — which register is read
  and written, with which damage, in which order — is transcribed verbatim
  from the source.
-/

namespace Bits

/-- Transcription of `enum Damage` from `src/snn/src/register/mod.rs`. -/
inductive Damage where
  | StuckAt0 (bit_position : Nat)
  | StuckAt1 (bit_position : Nat)
  | TransientBitFlip (bit_position : Nat) (time_step : Nat)
  | Working
deriving DecidableEq

/-- Transcription of `struct Register`: `value` is the IEEE-754 binary64 bit
pattern of the stored `f64` (the Rust code reinterprets the stored value with
`transmute`, a bit-exact operation, so working directly on the pattern is
faithful). -/
structure Register where
  value : Nat
  damage : Damage
deriving DecidableEq

/-- The modulus of `u64` arithmetic: masks in the source are `u64` values. -/
def UINT64_MOD : Nat := 2 ^ 64

/-- Transcription of `Register::read_value`.  The `StuckAt0` branch builds the
mask `!(1 << bit_position)` (bitwise complement on `u64`) and ANDs it with the
pattern; the `StuckAt1` branch ORs `1 << bit_position`; `TransientBitFlip`
returns `none` when no current time step is supplied, the raw pattern when the
steps differ, and the pattern XOR `1 << bit_position` when they match. -/
def Register.read_value (r : Register) (current_time_step : Option Nat) : Option Nat :=
  match r.damage with
  | Damage.Working => some r.value
  | Damage.StuckAt0 bit_position =>
      let mask := ((1 <<< bit_position) % UINT64_MOD) ^^^ (UINT64_MOD - 1)
      some (r.value &&& mask)
  | Damage.StuckAt1 bit_position =>
      let mask := (1 <<< bit_position) % UINT64_MOD
      some (r.value ||| mask)
  | Damage.TransientBitFlip bit_position time_step =>
      match current_time_step with
      | none => none
      | some curr_step =>
          if curr_step ≠ time_step then some r.value
          else some (r.value ^^^ ((1 <<< bit_position) % UINT64_MOD))

/-- Helper predicate: the damage descriptor is a transient bit flip.  Only this
variant of `read_value` consults the current time step. -/
def Damage.isTransient : Damage → Bool
  | Damage.TransientBitFlip _ _ => true
  | _ => false

end Bits

namespace Dyn

/-- Numeric-view model of the bit-level fault transformations.  On the
abstract carrier `ℚ` the three IEEE-754 pattern manipulations of
`Register::read_value` (clear a bit, set a bit, flip a bit) are not
expressible, so they are supplied as opaque-to-the-development functions;
every theorem about the dynamics quantifies over them.  A `Working` register
never consults these operations. -/
structure DamageOps where
  stuck0 : Nat → ℚ → ℚ
  stuck1 : Nat → ℚ → ℚ
  flip : Nat → ℚ → ℚ

/-- Numeric-view register: same structure as `Bits.Register`, with the stored
`f64` modelled by its exact numeric value. -/
structure Register where
  value : ℚ
  damage : Bits.Damage
deriving DecidableEq

/-- Transcription of `Register::new`: fresh registers carry no damage. -/
def Register.new (value : ℚ) : Register :=
  { value := value, damage := Bits.Damage.Working }

/-- Transcription of `Register::apply_damage`. -/
def Register.apply_damage (r : Register) (damage : Bits.Damage) : Register :=
  { r with damage := damage }

/-- Transcription of `Register::write_value`: writes store the raw value,
damages act only on the read path. -/
def Register.write_value (r : Register) (value : ℚ) : Register :=
  { r with value := value }

/-- Transcription of `Register::read_value` on the numeric view: same branch
structure as `Bits.Register.read_value`, with the bit manipulations supplied
by `D`. -/
def Register.read_value (D : DamageOps) (r : Register) (current_time_step : Option Nat) :
    Option ℚ :=
  match r.damage with
  | Bits.Damage.Working => some r.value
  | Bits.Damage.StuckAt0 bit_position => some (D.stuck0 bit_position r.value)
  | Bits.Damage.StuckAt1 bit_position => some (D.stuck1 bit_position r.value)
  | Bits.Damage.TransientBitFlip bit_position time_step =>
      match current_time_step with
      | none => none
      | some curr_step =>
          if curr_step ≠ time_step then some r.value
          else some (D.flip bit_position r.value)

/-- Value returned by a read that supplies a current time step.  Such a read
always succeeds (`read_value_some` below), so the `unwrap()` calls of the
arithmetic helpers are modelled by this total function. -/
def Register.read_at (D : DamageOps) (r : Register) (current_time_step : Nat) : ℚ :=
  match r.damage with
  | Bits.Damage.Working => r.value
  | Bits.Damage.StuckAt0 bit_position => D.stuck0 bit_position r.value
  | Bits.Damage.StuckAt1 bit_position => D.stuck1 bit_position r.value
  | Bits.Damage.TransientBitFlip bit_position time_step =>
      if current_time_step ≠ time_step then r.value
      else D.flip bit_position r.value

/-- Transcription of `Register::cmp` with the `unwrap()` of each operand read
made explicit: a failed read (a panic in the source) yields `none`. -/
def Register.cmp (D : DamageOps) (r1 r2 res_reg : Register) (current_time_step : Nat) :
    Option Register :=
  match Register.read_value D r1 (some current_time_step),
        Register.read_value D r2 (some current_time_step) with
  | some n1, some n2 => some (Register.write_value res_reg (n1 - n2))
  | _, _ => none

/-- Transcription of `Register::add`, `unwrap()` made explicit as for `cmp`. -/
def Register.add (D : DamageOps) (r1 r2 res_reg : Register) (current_time_step : Nat) :
    Option Register :=
  match Register.read_value D r1 (some current_time_step),
        Register.read_value D r2 (some current_time_step) with
  | some n1, some n2 => some (Register.write_value res_reg (n1 + n2))
  | _, _ => none

/-- Transcription of `Register::sub`, `unwrap()` made explicit as for `cmp`. -/
def Register.sub (D : DamageOps) (r1 r2 res_reg : Register) (current_time_step : Nat) :
    Option Register :=
  match Register.read_value D r1 (some current_time_step),
        Register.read_value D r2 (some current_time_step) with
  | some n1, some n2 => some (Register.write_value res_reg (n1 - n2))
  | _, _ => none

/-- Transcription of `Register::mult`, `unwrap()` made explicit as for `cmp`. -/
def Register.mult (D : DamageOps) (r1 r2 res_reg : Register) (current_time_step : Nat) :
    Option Register :=
  match Register.read_value D r1 (some current_time_step),
        Register.read_value D r2 (some current_time_step) with
  | some n1, some n2 => some (Register.write_value res_reg (n1 * n2))
  | _, _ => none

/-- Transcription of `Register::div`, `unwrap()` made explicit as for `cmp`.
Rational division by zero is total (it returns `0`) where `f64` division
returns an infinity or NaN; no claim below depends on a division by zero. -/
def Register.div (D : DamageOps) (r1 r2 res_reg : Register) (current_time_step : Nat) :
    Option Register :=
  match Register.read_value D r1 (some current_time_step),
        Register.read_value D r2 (some current_time_step) with
  | some n1, some n2 => some (Register.write_value res_reg (n1 / n2))
  | _, _ => none

/-- Transcription of `Register::copy_to`, `unwrap()` made explicit. -/
def Register.copy_to (D : DamageOps) (r dest_reg : Register) (current_time_step : Nat) :
    Option Register :=
  match Register.read_value D r (some current_time_step) with
  | some n => some (Register.write_value dest_reg n)
  | none => none

/-- Total form of `Register::cmp`; agrees with `Register.cmp` by
`cmp_eq_run` proved below. -/
def cmpRun (D : DamageOps) (r1 r2 res_reg : Register) (s : Nat) : Register :=
  Register.write_value res_reg (Register.read_at D r1 s - Register.read_at D r2 s)

/-- Total form of `Register::add`. -/
def addRun (D : DamageOps) (r1 r2 res_reg : Register) (s : Nat) : Register :=
  Register.write_value res_reg (Register.read_at D r1 s + Register.read_at D r2 s)

/-- Total form of `Register::sub`. -/
def subRun (D : DamageOps) (r1 r2 res_reg : Register) (s : Nat) : Register :=
  Register.write_value res_reg (Register.read_at D r1 s - Register.read_at D r2 s)

/-- Total form of `Register::mult`. -/
def multRun (D : DamageOps) (r1 r2 res_reg : Register) (s : Nat) : Register :=
  Register.write_value res_reg (Register.read_at D r1 s * Register.read_at D r2 s)

/-- Total form of `Register::div`. -/
def divRun (D : DamageOps) (r1 r2 res_reg : Register) (s : Nat) : Register :=
  Register.write_value res_reg (Register.read_at D r1 s / Register.read_at D r2 s)

/-- Total form of `Register::copy_to`. -/
def copyRun (D : DamageOps) (r dest_reg : Register) (s : Nat) : Register :=
  Register.write_value dest_reg (Register.read_at D r s)

/-- Instantiation of the abstract bit operations used only to evaluate closed
statements whose registers are all `Working`; in that case `read_at` never
consults the operations, so any choice is equivalent. -/
def idOps : DamageOps :=
  { stuck0 := fun _ v => v, stuck1 := fun _ v => v, flip := fun _ v => v }

/-- Transcription of `enum NeuronModel` from `src/snn/src/network/mod.rs`. -/
inductive NeuronModel where
  | LeakyIntegrateAndFire
  | IntegrateAndFire
deriving DecidableEq

/-- Transcription of `enum PulseContributionMode` from
`src/snn/src/network/neuron/mod.rs`. -/
inductive PulseContributionMode where
  | Excitatory
  | Inhibitive
deriving DecidableEq

/-- Transcription of `struct Neuron` from `src/snn/src/network/neuron/mod.rs`,
field for field. -/
structure Neuron where
  v_th : Register
  v_rest : Register
  v_reset : Register
  tau : Register
  v_mem : Register
  last_received_pulse_step : Nat
  weights : List Register
  internal_weights : List Register
  add_reg : Register
  mul_reg : Register
  cmp_reg : Register
  div_reg : Register
deriving DecidableEq

/-- Transcription of `Neuron::new`. -/
def Neuron.new (v_th v_rest v_reset tau : ℚ) : Neuron :=
  { v_th := Register.new v_th
    v_rest := Register.new v_rest
    v_reset := Register.new v_reset
    tau := Register.new tau
    v_mem := Register.new v_rest
    last_received_pulse_step := 0
    weights := []
    internal_weights := []
    add_reg := Register.new 0
    mul_reg := Register.new 0
    cmp_reg := Register.new 0
    div_reg := Register.new 0 }

/-- Transcription of `Neuron::set_weights`. -/
def Neuron.set_weights (n : Neuron) (weights : List ℚ) : Neuron :=
  { n with weights := weights.map Register.new }

/-- Transcription of `Neuron::set_internal_weights`. -/
def Neuron.set_internal_weights (n : Neuron) (internal_weights : List ℚ) : Neuron :=
  { n with internal_weights := internal_weights.map Register.new }

/-- Transcription of `Neuron::get_pulses_contribution`: a copy of `add_reg`
(keeping its damage descriptor) is zeroed and then accumulates one
`Register::add` per pulse source, reading the accumulator and the weight at
the current step through their damages each time.  The source indexes
`self.weights[*source_index]` and panics when a source index is out of range;
out-of-range accesses are mapped to an undamaged zero register here, and every
theorem that depends on the contribution restricts source indices to the
weight vector. -/
def Neuron.get_pulses_contribution (D : DamageOps) (n : Neuron) (pulse_sources : List Nat)
    (time_step : Nat) : Register :=
  let add_reg := Register.write_value n.add_reg 0
  pulse_sources.foldl
    (fun acc source_index =>
      addRun D acc (n.weights.getD source_index (Register.new 0)) acc time_step)
    add_reg

/-- Transcription of `Neuron::get_inhibitive_contribution`: identical to
`get_pulses_contribution` with `internal_weights` in place of `weights`. -/
def Neuron.get_inhibitive_contribution (D : DamageOps) (n : Neuron) (pulse_sources : List Nat)
    (time_step : Nat) : Register :=
  let add_reg := Register.write_value n.add_reg 0
  pulse_sources.foldl
    (fun acc source_index =>
      addRun D acc (n.internal_weights.getD source_index (Register.new 0)) acc time_step)
    add_reg

/-- Transcription of `Neuron::update_membrane_potential`.  Every read and
write goes through the register helpers exactly as in the source: the local
`pulses_contrib_reg` receives `v_mem + pulses_contribution` read back through
`add_reg`; in the LIF branch `v_mem - v_rest` passes through `add_reg`, the
exponent through `mul_reg` then `div_reg`, the decay product through
`mul_reg`, and the final sum through `add_reg` into `v_mem`.  `e` stands for
the scalar `f64::exp` applied to the read-back exponent argument. -/
def Neuron.update_membrane_potential (D : DamageOps) (e : ℚ → ℚ) (n : Neuron)
    (pulse_sources : List Nat) (time_step : Nat) (time_step_duration_ms : ℚ)
    (neuron_model : NeuronModel) (pulse_contribution_mode : PulseContributionMode) : Neuron :=
  let pulses_contribution :=
    match pulse_contribution_mode with
    | PulseContributionMode.Excitatory =>
        Neuron.get_pulses_contribution D n pulse_sources time_step
    | PulseContributionMode.Inhibitive =>
        Neuron.get_inhibitive_contribution D n pulse_sources time_step
  let add_reg1 := addRun D n.v_mem pulses_contribution n.add_reg time_step
  let pulses_contrib_reg := copyRun D add_reg1 (Register.new 0) time_step
  match neuron_model with
  | NeuronModel.LeakyIntegrateAndFire =>
      let add_reg2 := subRun D n.v_mem n.v_rest add_reg1 time_step
      let vm_vr := copyRun D add_reg2 (Register.new 0) time_step
      let diff_steps :=
        Register.new ((n.last_received_pulse_step : ℚ) - (time_step : ℚ))
      let mul_reg1 :=
        multRun D diff_steps (Register.new time_step_duration_ms) n.mul_reg time_step
      let div_reg1 := divRun D mul_reg1 n.tau n.div_reg time_step
      let exp_arg := copyRun D div_reg1 (Register.new 0) time_step
      let exp_res := Register.new (e (Register.read_at D exp_arg time_step))
      let mul_reg2 := multRun D exp_res vm_vr mul_reg1 time_step
      let decay_part := copyRun D mul_reg2 (Register.new 0) time_step
      let add_reg3 := addRun D decay_part pulses_contrib_reg add_reg2 time_step
      { n with
        v_mem := copyRun D add_reg3 n.v_mem time_step
        add_reg := add_reg3
        mul_reg := mul_reg2
        div_reg := div_reg1 }
  | NeuronModel.IntegrateAndFire =>
      { n with
        v_mem := copyRun D pulses_contrib_reg n.v_mem time_step
        add_reg := add_reg1 }

/-- Transcription of `Neuron::feed_pulses`: update the membrane potential in
excitatory mode, record the step, compare `v_mem` against `v_th` through
`cmp_reg`, and fire (resetting `v_mem` from `v_reset` through the register
read path) exactly when the value read back from `cmp_reg` is nonnegative. -/
def Neuron.feed_pulses (D : DamageOps) (e : ℚ → ℚ) (n : Neuron) (pulse_sources : List Nat)
    (time_step : Nat) (time_step_duration_ms : ℚ) (neuron_model : NeuronModel) :
    Bool × Neuron :=
  let n1 := Neuron.update_membrane_potential D e n pulse_sources time_step
    time_step_duration_ms neuron_model PulseContributionMode.Excitatory
  let n2 := { n1 with last_received_pulse_step := time_step }
  let n3 := { n2 with cmp_reg := cmpRun D n2.v_mem n2.v_th n2.cmp_reg time_step }
  if 0 ≤ Register.read_at D n3.cmp_reg time_step then
    (true, { n3 with v_mem := copyRun D n3.v_reset n3.v_mem time_step })
  else
    (false, n3)

/-- Transcription of `Neuron::inhibite_after_pulses_emission`: update the
membrane potential in inhibitive mode and record the step; no pulse is
emitted. -/
def Neuron.inhibite_after_pulses_emission (D : DamageOps) (e : ℚ → ℚ) (n : Neuron)
    (pulse_sources : List Nat) (time_step : Nat) (time_step_duration_ms : ℚ)
    (neuron_model : NeuronModel) : Neuron :=
  let n1 := Neuron.update_membrane_potential D e n pulse_sources time_step
    time_step_duration_ms neuron_model PulseContributionMode.Inhibitive
  { n1 with last_received_pulse_step := time_step }

/-- Membrane update stated by the specification for the LIF model, written
from the spec sentence `v_mem ← read(v_rest, step) + (read(v_mem, step) −
read(v_rest, step)) · decay + pulses_contrib` with `decay = exp(dt_ms /
read(tau, step))`, `dt_ms = (last_pulse_step − step) · time_step_duration_ms`
and `pulses_contrib` the sum of the selected weights read at the step.  It is
compared against the transcription `Neuron.update_membrane_potential`. -/
def lif_spec_v_mem (D : DamageOps) (e : ℚ → ℚ) (n : Neuron) (pulse_sources : List Nat)
    (time_step : Nat) (time_step_duration_ms : ℚ)
    (pulse_contribution_mode : PulseContributionMode) : ℚ :=
  let ws :=
    match pulse_contribution_mode with
    | PulseContributionMode.Excitatory => n.weights
    | PulseContributionMode.Inhibitive => n.internal_weights
  let pulses_contrib :=
    (pulse_sources.map
      (fun s => Register.read_at D (ws.getD s (Register.new 0)) time_step)).sum
  let dt_ms :=
    ((n.last_received_pulse_step : ℚ) - (time_step : ℚ)) * time_step_duration_ms
  Register.read_at D n.v_rest time_step +
    (Register.read_at D n.v_mem time_step - Register.read_at D n.v_rest time_step) *
      e (dt_ms / Register.read_at D n.tau time_step) +
    pulses_contrib

/-- Concrete neuron exhibiting the divergence of the implemented LIF update
from the specified formula: electrical parameters are the defaults of the
source (`v_th = -55`, `v_rest = v_reset = -70`, `tau = 10`), and the membrane
potential sits at `-60` mV (any state with `v_mem ≠ v_rest`, as left by a
previous sub-threshold excitation).  All registers are `Working`. -/
def divergingNeuron : Neuron :=
  { Neuron.new (-55) (-70) (-70) 10 with v_mem := Register.new (-60) }

end Dyn

namespace Net

/-- Transcription of `enum Message` from `src/snn/src/network/neuron/mod.rs`:
`Pulse` carries the emitting neuron's index, `GoAhead` is the per-time-step
barrier. -/
inductive Message where
  | Pulse (source : Nat)
  | GoAhead
deriving DecidableEq

/-- Receive loop `while let Ok(Message::Pulse(source)) = recv()` of the layer
worker in `Network::run`: pop messages off the upstream sequence, collecting
pulse sources, until a `GoAhead` is consumed or the channel is exhausted
(a closed channel makes `recv` return `Err`).  Returns the collected sources
and the remaining upstream sequence. -/
def drain : List Message → List Nat × List Message
  | [] => ([], [])
  | Message.GoAhead :: rest => ([], rest)
  | Message.Pulse source :: rest =>
      let (ps, r) := drain rest
      (source :: ps, r)

/-- Feed loop `for (i, neuron) in layer_neurons.iter_mut().enumerate()` of the
layer worker: feed the collected pulse sources to every neuron in index order
(indices starting at `i0`), returning the updated neurons and the indices of
the neurons that fired, in index order. -/
def feed_layer (D : Dyn.DamageOps) (e : ℚ → ℚ) (pulse_sources : List Nat) (time_step : Nat)
    (time_step_duration_ms : ℚ) (model : Dyn.NeuronModel) :
    List Dyn.Neuron → Nat → List Dyn.Neuron × List Nat
  | [], _ => ([], [])
  | n :: rest, i0 =>
      let fed := Dyn.Neuron.feed_pulses D e n pulse_sources time_step
        time_step_duration_ms model
      let (rest', fired) :=
        feed_layer D e pulse_sources time_step time_step_duration_ms model rest (i0 + 1)
      (fed.2 :: rest', (if fed.1 then [i0] else []) ++ fired)

/-- One time step of the layer worker closure in `Network::run`
(`src/snn/src/network/mod.rs`): drain the upstream channel until a barrier,
apply lateral inhibition from the previous step's emitters when `step > 0`
(then clear them), and — only when at least one pulse was collected — feed the
pulses to every neuron, emitting one `Pulse` per firing neuron followed by a
single `GoAhead`.  When no pulse was collected, nothing is sent downstream.
Returns the updated `(neurons, emitted_pulse_sources)` state, the messages
sent downstream during this step, and the remaining upstream sequence. -/
def layer_worker_step (D : Dyn.DamageOps) (e : ℚ → ℚ) (time_step_duration_ms : ℚ)
    (model : Dyn.NeuronModel) (st : List Dyn.Neuron × List Nat) (time_step : Nat)
    (upstream : List Message) :
    (List Dyn.Neuron × List Nat) × List Message × List Message :=
  let (pulse_sources, rest) := drain upstream
  let neurons1 :=
    if 0 < time_step then
      st.1.map (fun n => Dyn.Neuron.inhibite_after_pulses_emission D e n st.2 time_step
        time_step_duration_ms model)
    else st.1
  let emitted1 := if 0 < time_step then [] else st.2
  if pulse_sources ≠ [] then
    let (neurons2, fired) :=
      feed_layer D e pulse_sources time_step time_step_duration_ms model neurons1 0
    ((neurons2, emitted1 ++ fired), fired.map Message.Pulse ++ [Message.GoAhead], rest)
  else
    ((neurons1, emitted1), [], rest)

/-- Iteration `for time_step in 0..snn_time_steps_number` of the layer worker:
run `remaining` further steps starting at step number `time_step`,
concatenating everything the worker sends downstream. -/
def layer_worker_loop (D : Dyn.DamageOps) (e : ℚ → ℚ) (time_step_duration_ms : ℚ)
    (model : Dyn.NeuronModel) (st : List Dyn.Neuron × List Nat) (upstream : List Message)
    (time_step : Nat) : Nat → List Message
  | 0 => []
  | remaining + 1 =>
      let (st', sent, rest) :=
        layer_worker_step D e time_step_duration_ms model st time_step upstream
      sent ++ layer_worker_loop D e time_step_duration_ms model st' rest (time_step + 1)
        remaining

/-- Complete downstream traffic of one layer worker over a run of
`snn_time_steps_number` steps, starting from freshly spawned state (no
previous-step emitters). -/
def layer_worker (D : Dyn.DamageOps) (e : ℚ → ℚ) (time_step_duration_ms : ℚ)
    (model : Dyn.NeuronModel) (layer_neurons : List Dyn.Neuron) (upstream : List Message)
    (snn_time_steps_number : Nat) : List Message :=
  layer_worker_loop D e time_step_duration_ms model (layer_neurons, []) upstream 0
    snn_time_steps_number

/-- Number of `GoAhead` barriers in a message sequence. -/
def countBarriers (msgs : List Message) : Nat :=
  msgs.countP (fun m => m = Message.GoAhead)

/-- Number of `GoAhead` barriers consumed from the upstream sequence by one
`drain` call: one when the collection stopped on a barrier, zero when the
channel was exhausted. -/
def drainedBarriers (upstream : List Message) : Nat :=
  countBarriers upstream - countBarriers (drain upstream).2

/-- Transcription of `enum FaultyElement` from `src/snn/src/network/mod.rs`. -/
inductive FaultyElement where
  | Weights
  | Thresholds
  | MembranePotentials
  | ResetPotentials
  | PotentialsAtRest
  | Comparator
  | Adder
  | Multiplier
  | Divider
deriving DecidableEq

/-- Transcription of `struct DamageDetail`. -/
structure DamageDetail where
  at_iteration : Nat
  damage_type : FaultyElement
  at_layer : Nat
  at_neuron : Nat
  at_bit : Nat
deriving DecidableEq

/-- Transcription of `struct SimulationResultCell`. -/
structure SimulationResultCell where
  output_index : Nat
  time_step : Nat
  actual_value : Bool
  diff_count : Nat
  damage_details : List DamageDetail
deriving DecidableEq

/-- Transcription of `SimulationResultCell::new`. -/
def SimulationResultCell.new (row_id col_id : Nat) : SimulationResultCell :=
  { output_index := row_id
    time_step := col_id
    actual_value := false
    diff_count := 0
    damage_details := [] }

/-- Body of the `if output_with_damage[i][j] != output_without_damages[i][j]`
branch of `Network::compare_outputs`: bump the diff counter and append the
damage detail of this trial stamped with the iteration number. -/
def record_diff (cell : SimulationResultCell) (iteration_number : Nat)
    (damage_detail : DamageDetail) : SimulationResultCell :=
  { cell with
    diff_count := cell.diff_count + 1
    damage_details :=
      cell.damage_details ++ [{ damage_detail with at_iteration := iteration_number }] }

/-- Transcription of `Network::compare_outputs`.  The source iterates `i` over
`0..output_with_damage.len()` and `j` over `0..output_with_damage[0].len()`
and mutates `simulation_result_matrix[i][j]` in place; the `Vec<Vec<_>>`
matrices are modelled as functions together with the explicit bounds `R`
(rows) and `C` (columns) of the damaged output, so the update touches exactly
the index range the source iterates. -/
def compare_outputs (output_without_damages output_with_damage : Nat → Nat → Bool)
    (R C : Nat) (simulation_result_matrix : Nat → Nat → SimulationResultCell)
    (iteration_number : Nat) (damage_detail : DamageDetail) :
    Nat → Nat → SimulationResultCell :=
  fun i j =>
    if i < R ∧ j < C ∧ output_with_damage i j ≠ output_without_damages i j then
      record_diff (simulation_result_matrix i j) iteration_number damage_detail
    else
      simulation_result_matrix i j

/-- Damaged-trial loop `for iteration_number in 0..iterations` of
`Network::simulate`, with the per-trial damaged run abstracted: trial `k`
produces the output matrix `damaged_output k` (the result of running the
independently damaged clone) and the damage descriptor `detail k` (drawn by
`apply_damage_to_snn`).  The result matrix starts from
`SimulationResultCell::new i j` at every cell and accumulates one
`compare_outputs` pass per trial. -/
def damaged_trials_fold (output_without_damages : Nat → Nat → Bool)
    (damaged_output : Nat → Nat → Nat → Bool) (detail : Nat → DamageDetail)
    (R C : Nat) : Nat → Nat → Nat → SimulationResultCell
  | 0 => fun i j => SimulationResultCell.new i j
  | k + 1 =>
      compare_outputs output_without_damages (damaged_output k) R C
        (damaged_trials_fold output_without_damages damaged_output detail R C k) k (detail k)

/-- Final pass of `Network::simulate` over `i in
0..output_without_damages.len()`, `j in 0..output_without_damages[0].len()`:
cells that recorded at least one difference flip the golden value, the others
keep it.  Composed with `damaged_trials_fold` this is the `diffs` matrix the
campaign returns. -/
def simulate_diffs (output_without_damages : Nat → Nat → Bool)
    (damaged_output : Nat → Nat → Nat → Bool) (detail : Nat → DamageDetail)
    (R C : Nat) (iterations : Nat) : Nat → Nat → SimulationResultCell :=
  fun i j =>
    let cell := damaged_trials_fold output_without_damages damaged_output detail R C
      iterations i j
    if i < R ∧ j < C then
      { cell with
        actual_value :=
          if cell.diff_count ≠ 0 then ! output_without_damages i j
          else output_without_damages i j }
    else cell

end Net

namespace Json

/-- Transcription of `struct NeuronData` from `src/snn/src/network/json/mod.rs`. -/
structure NeuronData where
  weights : List ℚ
  internal_weights : List ℚ
  v_th : ℚ
  v_rest : ℚ
  v_reset : ℚ
  tau : ℚ
deriving DecidableEq

/-- Transcription of `struct LayerData`. -/
structure LayerData where
  neurons : List NeuronData
deriving DecidableEq

/-- Transcription of `struct NetworkData` (the deserialized JSON file). -/
structure NetworkData where
  time_step_duration_us : ℚ
  nr_inputs : Nat
  nr_outputs : Nat
  layers : List LayerData
deriving DecidableEq

/-- Network assembled by `load_from_file`: the fields passed to
`Network::new` plus the layers accumulated by `add_layer`. -/
structure LoadedNetwork where
  nr_inputs : Nat
  nr_outputs : Nat
  time_step_duration_us : ℚ
  layers : List (List Dyn.Neuron)
deriving DecidableEq

/-- Transcription of the construction phase of `load_from_file` (after file
reading and serde parsing, which are modelled by supplying the parsed
`NetworkData` directly): every neuron of every layer is built with
`Neuron::new`, `set_weights` and `set_internal_weights`, and the layer is
appended with `add_layer`.  The function is total: the source performs no
topology validation, so every parsed file yields a network. -/
def load_from_data (nd : NetworkData) : LoadedNetwork :=
  { nr_inputs := nd.nr_inputs
    nr_outputs := nd.nr_outputs
    time_step_duration_us := nd.time_step_duration_us
    layers :=
      nd.layers.map (fun layer_data =>
        layer_data.neurons.map (fun neuron_data =>
          Dyn.Neuron.set_internal_weights
            (Dyn.Neuron.set_weights
              (Dyn.Neuron.new neuron_data.v_th neuron_data.v_rest neuron_data.v_reset
                neuron_data.tau)
              neuron_data.weights)
            neuron_data.internal_weights)) }

/-- Network description whose single neuron declares two input weights while
`nr_inputs = 1`: the fan-in of layer 0 is violated. -/
def mismatchedData : NetworkData :=
  { time_step_duration_us := 1000
    nr_inputs := 1
    nr_outputs := 1
    layers := [{ neurons := [{ weights := [1, 2], internal_weights := [0],
                               v_th := -55, v_rest := -70, v_reset := -70, tau := 10 }] }] }

end Json

namespace Cli

/-- Transcription of the `match element` arms in `main`
(`src/snn/src/main.rs`) that map one token of `--damaged-elements-list` to a
`FaultyElement`; the catch-all arm panics in the source and is modelled by
`none`. -/
def faulty_element_of_token (element : String) : Option Net.FaultyElement :=
  if element = "weights" then some Net.FaultyElement.Weights
  else if element = "thresholds" then some Net.FaultyElement.Weights
  else if element = "membrane_potentials" then some Net.FaultyElement.MembranePotentials
  else if element = "reset_potentials" then some Net.FaultyElement.ResetPotentials
  else if element = "potentials_at_rest" then some Net.FaultyElement.PotentialsAtRest
  else none

end Cli

/-! Shared helper lemmas. -/

/-- Shift masks of the source are `u64` values: for bit positions below 64 the
mask `1 << b` reduced modulo `2 ^ 64` is `2 ^ b`. -/
theorem shiftLeft_one_mod (b : Nat) (hb : b < 64) :
    (1 <<< b) % Bits.UINT64_MOD = 2 ^ b := by
  rw [Nat.shiftLeft_eq, one_mul, Bits.UINT64_MOD]
  exact Nat.mod_eq_of_lt (Nat.pow_lt_pow_right one_lt_two hb)

/-- Bits of the all-ones `u64` mask `!0`: set exactly below position 64. -/
theorem testBit_u64_ones (i : Nat) : (Bits.UINT64_MOD - 1).testBit i = decide (i < 64) := by
  have h : Bits.UINT64_MOD - 1 = 2 ^ 64 - 1 := rfl
  rw [h, Nat.testBit_two_pow_sub_one]

/-- A numeric-view read that supplies a time step always succeeds and returns
`read_at`. -/
theorem dyn_read_value_some (D : Dyn.DamageOps) (r : Dyn.Register) (s : Nat) :
    Dyn.Register.read_value D r (some s) = some (Dyn.Register.read_at D r s) := by
  rcases r with ⟨v, d⟩
  cases d <;> simp [Dyn.Register.read_value, Dyn.Register.read_at]
  split <;> rfl

/-! Claim theorems. -/

/-- C4: reading a register with fault `StuckAt0 b` (for `b < 64` and a stored
pattern below `2 ^ 64`) always succeeds and returns the pattern with bit `b`
cleared and every other bit unchanged; symmetrically `StuckAt1 b` returns the
pattern with bit `b` set and every other bit unchanged — with or without a
current time step. -/
theorem stuckAt_read_masks_exactly_one_bit (v b : Nat) (stp : Option Nat)
    (hv : v < 2 ^ 64) (hb : b < 64) :
    ((Bits.Register.read_value ⟨v, Bits.Damage.StuckAt0 b⟩ stp).isSome = true ∧
      ∀ i, ((Bits.Register.read_value ⟨v, Bits.Damage.StuckAt0 b⟩ stp).getD 0).testBit i =
        (if i = b then false else v.testBit i)) ∧
    ((Bits.Register.read_value ⟨v, Bits.Damage.StuckAt1 b⟩ stp).isSome = true ∧
      ∀ i, ((Bits.Register.read_value ⟨v, Bits.Damage.StuckAt1 b⟩ stp).getD 0).testBit i =
        (if i = b then true else v.testBit i)) := by
  have hmask : (1 <<< b) % Bits.UINT64_MOD = 2 ^ b := shiftLeft_one_mod b hb
  refine ⟨⟨rfl, fun i => ?_⟩, ⟨rfl, fun i => ?_⟩⟩
  · show (v &&& ((1 <<< b) % Bits.UINT64_MOD ^^^ (Bits.UINT64_MOD - 1))).testBit i = _
    rw [hmask, Nat.testBit_and, Nat.testBit_xor, testBit_u64_ones]
    by_cases hib : i = b
    · subst hib
      rw [Nat.testBit_two_pow_self, if_pos rfl]
      simp [hb]
    · rw [Nat.testBit_two_pow_of_ne (Ne.symm hib), if_neg hib]
      by_cases hi64 : i < 64
      · simp [hi64]
      · have h64 : (64 : Nat) ≤ i := Nat.le_of_not_lt hi64
        have hv' : v < 2 ^ i := lt_of_lt_of_le hv (Nat.pow_le_pow_right (by norm_num) h64)
        simp [hi64, Nat.testBit_lt_two_pow hv']
  · show (v ||| (1 <<< b) % Bits.UINT64_MOD).testBit i = _
    rw [hmask, Nat.testBit_or]
    by_cases hib : i = b
    · subst hib
      rw [Nat.testBit_two_pow_self, if_pos rfl]
      simp
    · rw [Nat.testBit_two_pow_of_ne (Ne.symm hib), if_neg hib]
      simp

/-- C4 witness: evaluation at the concrete pattern `3` and bit `1`. -/
theorem stuckAt_read_masks_exactly_one_bit_witness :
    ((3 : Nat) < 2 ^ 64 ∧ (1 : Nat) < 64) ∧
    ((Bits.Register.read_value ⟨3, Bits.Damage.StuckAt0 1⟩ none).getD 0).testBit 1 =
      (if (1 : Nat) = 1 then false else (3 : Nat).testBit 1) ∧
    ((Bits.Register.read_value ⟨3, Bits.Damage.StuckAt1 1⟩ none).getD 0).testBit 0 =
      (if (0 : Nat) = 1 then true else (3 : Nat).testBit 0) :=
  ⟨⟨by decide, by decide⟩,
    (stuckAt_read_masks_exactly_one_bit 3 1 none (by decide) (by decide)).1.2 1,
    (stuckAt_read_masks_exactly_one_bit 3 1 none (by decide) (by decide)).2.2 0⟩

/-- C5: reading a register with fault `TransientBitFlip b s` (for `b < 64`)
at current step `s` returns the raw pattern XOR `2 ^ b`, and reading it at any
other current step returns the raw pattern unchanged. -/
theorem transient_read_locality (v b s : Nat) (hb : b < 64) :
    Bits.Register.read_value ⟨v, Bits.Damage.TransientBitFlip b s⟩ (some s) =
      some (v ^^^ 2 ^ b) ∧
    ∀ s', s' ≠ s →
      Bits.Register.read_value ⟨v, Bits.Damage.TransientBitFlip b s⟩ (some s') = some v := by
  constructor
  · simp [Bits.Register.read_value, shiftLeft_one_mod b hb]
  · intro s' hs'
    simp [Bits.Register.read_value, hs']

/-- C5 witness: evaluation at pattern `7`, bit `1`, fault step `2`, read at
steps `2` and `0`. -/
theorem transient_read_locality_witness :
    (1 : Nat) < 64 ∧
    Bits.Register.read_value ⟨7, Bits.Damage.TransientBitFlip 1 2⟩ (some 2) =
      some (7 ^^^ 2 ^ 1) ∧
    Bits.Register.read_value ⟨7, Bits.Damage.TransientBitFlip 1 2⟩ (some 0) = some 7 :=
  ⟨by decide, (transient_read_locality 7 1 2 (by decide)).1,
    (transient_read_locality 7 1 2 (by decide)).2 0 (by decide)⟩

/-- C7: a read without a current time step fails exactly when the active
fault is a `TransientBitFlip`; for the other three fault kinds the read
succeeds and the missing step does not change the returned value. -/
theorem read_without_step_fails_iff_transient (r : Bits.Register) :
    (Bits.Register.read_value r none = none ↔ Bits.Damage.isTransient r.damage = true) ∧
    ∀ s, Bits.Damage.isTransient r.damage = false →
      Bits.Register.read_value r (some s) = Bits.Register.read_value r none := by
  rcases r with ⟨v, d⟩
  cases d <;> simp [Bits.Register.read_value, Bits.Damage.isTransient]

/-- C7 witness: evaluation at a `Working` register and at a transient one. -/
theorem read_without_step_fails_iff_transient_witness :
    Bits.Damage.isTransient Bits.Damage.Working = false ∧
    Bits.Register.read_value ⟨5, Bits.Damage.Working⟩ (some 3) =
      Bits.Register.read_value ⟨5, Bits.Damage.Working⟩ none ∧
    (Bits.Register.read_value ⟨5, Bits.Damage.TransientBitFlip 0 0⟩ none = none ↔
      Bits.Damage.isTransient (Bits.Damage.TransientBitFlip 0 0) = true) :=
  ⟨by decide, (read_without_step_fails_iff_transient ⟨5, Bits.Damage.Working⟩).2 3 (by decide),
    (read_without_step_fails_iff_transient ⟨5, Bits.Damage.TransientBitFlip 0 0⟩).1⟩

/-- C10: a read that supplies a current time step always yields a value, in
the bit-pattern view and in the numeric view, and consequently every
arithmetic helper — which reads both operands with `Some(step)` and unwraps —
never fails: each equals `some` of its total form. -/
theorem read_with_step_never_fails :
    (∀ (r : Bits.Register) (s : Nat), (Bits.Register.read_value r (some s)).isSome = true) ∧
    (∀ (D : Dyn.DamageOps) (r : Dyn.Register) (s : Nat),
      Dyn.Register.read_value D r (some s) = some (Dyn.Register.read_at D r s)) ∧
    (∀ (D : Dyn.DamageOps) (r1 r2 res : Dyn.Register) (s : Nat),
      Dyn.Register.cmp D r1 r2 res s = some (Dyn.cmpRun D r1 r2 res s)) ∧
    (∀ (D : Dyn.DamageOps) (r1 r2 res : Dyn.Register) (s : Nat),
      Dyn.Register.add D r1 r2 res s = some (Dyn.addRun D r1 r2 res s)) ∧
    (∀ (D : Dyn.DamageOps) (r1 r2 res : Dyn.Register) (s : Nat),
      Dyn.Register.sub D r1 r2 res s = some (Dyn.subRun D r1 r2 res s)) ∧
    (∀ (D : Dyn.DamageOps) (r1 r2 res : Dyn.Register) (s : Nat),
      Dyn.Register.mult D r1 r2 res s = some (Dyn.multRun D r1 r2 res s)) ∧
    (∀ (D : Dyn.DamageOps) (r1 r2 res : Dyn.Register) (s : Nat),
      Dyn.Register.div D r1 r2 res s = some (Dyn.divRun D r1 r2 res s)) ∧
    (∀ (D : Dyn.DamageOps) (r dest : Dyn.Register) (s : Nat),
      Dyn.Register.copy_to D r dest s = some (Dyn.copyRun D r dest s)) := by
  refine ⟨fun r s => ?_, dyn_read_value_some, fun D r1 r2 res s => ?_, fun D r1 r2 res s => ?_,
    fun D r1 r2 res s => ?_, fun D r1 r2 res s => ?_, fun D r1 r2 res s => ?_,
    fun D r dest s => ?_⟩
  · rcases r with ⟨v, d⟩
    cases d <;> simp [Bits.Register.read_value, apply_ite]
  · rw [Dyn.Register.cmp, dyn_read_value_some, dyn_read_value_some]; rfl
  · rw [Dyn.Register.add, dyn_read_value_some, dyn_read_value_some]; rfl
  · rw [Dyn.Register.sub, dyn_read_value_some, dyn_read_value_some]; rfl
  · rw [Dyn.Register.mult, dyn_read_value_some, dyn_read_value_some]; rfl
  · rw [Dyn.Register.div, dyn_read_value_some, dyn_read_value_some]; rfl
  · rw [Dyn.Register.copy_to, dyn_read_value_some]; rfl

/-- C8: loading a network description whose layer-0 neuron declares two input
weights while `nr_inputs = 1` does not fail — `load_from_file` performs no
fan-in validation and returns a network carrying the mismatched weight
vector, contradicting the required `InvalidInput` failure. -/
theorem load_accepts_fan_in_mismatch :
    (Json.load_from_data Json.mismatchedData).layers.length = 1 ∧
    (((Json.load_from_data Json.mismatchedData).layers.getD 0 []).getD 0
        (Dyn.Neuron.new 0 0 0 0)).weights.length = 2 ∧
    Json.mismatchedData.nr_inputs = 1 :=
  ⟨rfl, rfl, rfl⟩

/-- C9: the CLI token `thresholds` is mapped to the `Weights` faulty-element
kind, not to `Thresholds`. -/
theorem thresholds_token_maps_to_weights :
    Cli.faulty_element_of_token "thresholds" = some Net.FaultyElement.Weights ∧
    Cli.faulty_element_of_token "thresholds" ≠ some Net.FaultyElement.Thresholds := by
  exact ⟨by decide, by decide⟩

/-- C6: for every neuron, pulse-source list, step, duration and model,
`feed_pulses` first updates the membrane potential and records the step, then
writes `cmp(v_mem, v_th)` into `cmp_reg`; it returns `true` and copies
`v_reset` into `v_mem` through the register read path exactly when the value
read back from `cmp_reg` at that step is nonnegative, and returns `false`
leaving `v_mem` at the updated value otherwise. -/
theorem feed_pulses_fires_iff_cmp_nonneg (D : Dyn.DamageOps) (e : ℚ → ℚ)
    (n : Dyn.Neuron) (pulse_sources : List Nat) (time_step : Nat)
    (time_step_duration_ms : ℚ) (model : Dyn.NeuronModel) :
    let u := { Dyn.Neuron.update_membrane_potential D e n pulse_sources time_step
                 time_step_duration_ms model Dyn.PulseContributionMode.Excitatory with
               last_received_pulse_step := time_step }
    let c := Dyn.cmpRun D u.v_mem u.v_th u.cmp_reg time_step
    let fp := Dyn.Neuron.feed_pulses D e n pulse_sources time_step time_step_duration_ms
      model
    fp.1 = decide (0 ≤ Dyn.Register.read_at D c time_step) ∧
    fp.2.last_received_pulse_step = time_step ∧
    fp.2.cmp_reg = c ∧
    fp.2.v_mem = (if 0 ≤ Dyn.Register.read_at D c time_step
                  then Dyn.copyRun D u.v_reset u.v_mem time_step
                  else u.v_mem) := by
  intro u c fp
  simp only [fp, c, u, Dyn.Neuron.feed_pulses]
  split
  next h => simp [h]
  next h => simp [h]

/-- C1 refutation: at a `Working` LIF neuron whose membrane potential sits at
`-60` mV above its rest value `-70` mV, the update performed by
`inhibite_after_pulses_emission` at step 1 (with no pulse sources, time-step
duration 1 ms, `tau = 10`) exceeds the value demanded by the specification
formula by exactly `v_mem - v_rest = 10` mV, whatever the exponential
function: the implementation adds the decay term to `v_mem +
pulses_contrib` where the specification adds it to `v_rest +
pulses_contrib`. -/
theorem lif_update_adds_vmem_not_vrest (D : Dyn.DamageOps) (e : ℚ → ℚ) :
    (Dyn.Neuron.inhibite_after_pulses_emission D e Dyn.divergingNeuron [] 1 1
        Dyn.NeuronModel.LeakyIntegrateAndFire).v_mem.value =
      Dyn.lif_spec_v_mem D e Dyn.divergingNeuron [] 1 1
        Dyn.PulseContributionMode.Inhibitive + 10 := by
  simp [Dyn.Neuron.inhibite_after_pulses_emission, Dyn.Neuron.update_membrane_potential,
    Dyn.Neuron.get_inhibitive_contribution, Dyn.lif_spec_v_mem, Dyn.divergingNeuron,
    Dyn.Neuron.new, Dyn.Register.new, Dyn.Register.write_value, Dyn.Register.read_at,
    Dyn.addRun, Dyn.subRun, Dyn.multRun, Dyn.divRun, Dyn.cmpRun, Dyn.copyRun]
  ring

/-- C3 refutation and per-step law: in every time step a layer worker emits
one `GoAhead` barrier if it drained at least one pulse from upstream and none
otherwise; in particular a single-step run whose upstream carries one barrier
and no pulses consumes the barrier but emits nothing, so a layer does not
emit exactly one barrier per simulated step and barrier counts are not
conserved. -/
theorem barrier_emitted_only_when_pulses_received :
    (∀ (D : Dyn.DamageOps) (e : ℚ → ℚ) (dt : ℚ) (model : Dyn.NeuronModel)
        (st : List Dyn.Neuron × List Nat) (step : Nat) (upstream : List Net.Message),
      Net.countBarriers (Net.layer_worker_step D e dt model st step upstream).2.1 =
        if (Net.drain upstream).1 = [] then 0 else 1) ∧
    Net.layer_worker Dyn.idOps (fun _ => 1) 1 Dyn.NeuronModel.LeakyIntegrateAndFire
        [Dyn.Neuron.new (-55) (-70) (-70) 10] [Net.Message.GoAhead] 1 = [] ∧
    Net.countBarriers [Net.Message.GoAhead] = 1 := by
  refine ⟨fun D e dt model st step upstream => ?_, rfl, rfl⟩
  rcases hdrain : Net.drain upstream with ⟨pulse_sources, rest⟩
  by_cases hps : pulse_sources = []
  · simp [Net.layer_worker_step, hdrain, hps, Net.countBarriers]
  · simp [Net.layer_worker_step, hdrain, hps, Net.countBarriers, List.countP_append,
      List.countP_eq_zero]

/-- Cell contents after the damaged-trial loop of `Network::simulate` has run
`k` trials: inside the iterated index range, trial `t` contributes to cell
`(i, j)` exactly when its output at `(i, j)` differs from the golden one, and
each contribution appends the trial's damage detail stamped with `t`. -/
theorem damaged_trials_fold_cell (g : Nat → Nat → Bool)
    (dOf : Nat → Nat → Nat → Bool) (dd : Nat → Net.DamageDetail) (R C i j : Nat)
    (hi : i < R) (hj : j < C) (k : Nat) :
    Net.damaged_trials_fold g dOf dd R C k i j =
      { output_index := i, time_step := j, actual_value := false,
        diff_count := ((List.range k).filter (fun t => dOf t i j ≠ g i j)).length,
        damage_details := ((List.range k).filter (fun t => dOf t i j ≠ g i j)).map
          (fun t => { dd t with at_iteration := t }) } := by
  induction k with
  | zero => rfl
  | succ k ih =>
      rw [Net.damaged_trials_fold, Net.compare_outputs, ih]
      by_cases hdiff : dOf k i j ≠ g i j
      · rw [if_pos ⟨hi, hj, hdiff⟩]
        simp [Net.record_diff, List.range_succ, List.filter_append, hdiff]
      · rw [if_neg (by simp [hdiff])]
        simp [List.range_succ, List.filter_append, hdiff]

/-- Boolean form of the final `actual_value` pass: flipping on a nonzero
counter is the XOR with the counter's positivity. -/
theorem ite_ne_zero_eq_xor (b : Bool) (L : Nat) :
    (if L ≠ 0 then !b else b) = xor b (decide (0 < L)) := by
  rcases Nat.eq_zero_or_pos L with hL | hL
  · subst hL
    cases b <;> simp
  · have hne : L ≠ 0 := Nat.pos_iff_ne_zero.mp hL
    cases b <;> simp [hne, hL]

/-- C2: after the fault campaign, each cell of the `diffs` matrix counts
exactly the damaged trials whose output at that output index and time step
differed from the golden output, carries one damage-detail record per such
trial stamped with the trial's iteration number, and reports `actual_value =
golden XOR (diff_count > 0)`.  The per-trial damaged runs and drawn damages
are abstracted as the functions `dOf` and `dd`; `R` and `C` are the shared
dimensions of the golden and damaged output matrices. -/
theorem simulate_diff_accounting (g : Nat → Nat → Bool)
    (dOf : Nat → Nat → Nat → Bool) (dd : Nat → Net.DamageDetail) (R C : Nat)
    (iterations : Nat) (i j : Nat) (hi : i < R) (hj : j < C) :
    (Net.simulate_diffs g dOf dd R C iterations i j).diff_count =
      ((List.range iterations).filter (fun t => dOf t i j ≠ g i j)).length ∧
    (Net.simulate_diffs g dOf dd R C iterations i j).damage_details =
      ((List.range iterations).filter (fun t => dOf t i j ≠ g i j)).map
        (fun t => { dd t with at_iteration := t }) ∧
    (Net.simulate_diffs g dOf dd R C iterations i j).actual_value =
      xor (g i j)
        (decide (0 < (Net.simulate_diffs g dOf dd R C iterations i j).diff_count)) := by
  have hfold := damaged_trials_fold_cell g dOf dd R C i j hi hj iterations
  rw [Net.simulate_diffs, if_pos ⟨hi, hj⟩, hfold]
  exact ⟨rfl, rfl, ite_ne_zero_eq_xor (g i j) _⟩

/-- C2 witness: one output cell, two trials of which only trial 0 diverges. -/
theorem simulate_diff_accounting_witness :
    ((0 : Nat) < 1 ∧ (0 : Nat) < 1) ∧
    ((Net.simulate_diffs (fun _ _ => false) (fun t _ _ => decide (t = 0))
        (fun _ => ⟨0, Net.FaultyElement.Weights, 0, 0, 0⟩) 1 1 2 0 0).diff_count =
      ((List.range 2).filter
        (fun t => decide (t = 0) ≠ (fun _ _ => false) (0 : Nat) (0 : Nat))).length ∧
      (Net.simulate_diffs (fun _ _ => false) (fun t _ _ => decide (t = 0))
        (fun _ => ⟨0, Net.FaultyElement.Weights, 0, 0, 0⟩) 1 1 2 0 0).damage_details =
      ((List.range 2).filter
        (fun t => decide (t = 0) ≠ (fun _ _ => false) (0 : Nat) (0 : Nat))).map
        (fun t => { (⟨0, Net.FaultyElement.Weights, 0, 0, 0⟩ : Net.DamageDetail) with
                    at_iteration := t }) ∧
      (Net.simulate_diffs (fun _ _ => false) (fun t _ _ => decide (t = 0))
        (fun _ => ⟨0, Net.FaultyElement.Weights, 0, 0, 0⟩) 1 1 2 0 0).actual_value =
      xor ((fun _ _ => false) (0 : Nat) (0 : Nat))
        (decide (0 < (Net.simulate_diffs (fun _ _ => false) (fun t _ _ => decide (t = 0))
          (fun _ => ⟨0, Net.FaultyElement.Weights, 0, 0, 0⟩) 1 1 2 0 0).diff_count))) :=
  ⟨⟨by decide, by decide⟩,
    simulate_diff_accounting (fun _ _ => false) (fun t _ _ => decide (t = 0))
      (fun _ => ⟨0, Net.FaultyElement.Weights, 0, 0, 0⟩) 1 1 2 0 0 (by decide) (by decide)⟩
